import Mathlib

/-!
# Verification of `concurrent_file_processing` (main.go)

Shallow embedding of the Go program that counts occurrences of a target word
across a set of text files with a bounded worker pool and cooperative
cancellation.

Modelling conventions:
* A Go `string` is modelled as a Lean `String`; `strings.Count` works on
  bytes, but both arguments are valid UTF-8 in this program, and a byte-level
  match of valid UTF-8 always falls on rune boundaries, so counting over the
  rune sequence (`String.toList`) agrees with the byte-level count.
* A file on disk is modelled as a `FileModel`: the outcome of `os.Open`, the
  list of lines the `bufio.Scanner` yields before it stops, and the value of
  `scanner.Err()` after the loop (`none` = clean end-of-file).
* A `context.Context` during one scan is modelled by `cancelAt : Option Nat`:
  `some k` means the context's Done channel is ready at the k-th per-line
  check (and, cancellation being monotone, at every later check);
  `none` means Done never fires during the scan.
* Goroutine scheduling in `ProcessFiles`/`Worker` is modelled by a
  nondeterministic small-step relation `Step` over a pipeline state, with one
  transition per observable action of a worker (dequeue a job, publish a
  result, exit on a closed-and-drained queue, exit on cancellation) plus an
  external cancellation event.
-/

/-- Go errors that appear in this program, as abstract values. -/
inductive GoErr where
  /-- an error returned by `os.Open` -/
  | openFail (msg : String)
  /-- an I/O error reported by `scanner.Err()` -/
  | scanFail (msg : String)
  /-- `ctx.Err()` after cancellation (`context.Canceled`) -/
  | canceled
  deriving DecidableEq, Repr

/-- `type Job struct` (main.go:15-18): a unit of work — one file path plus the
target word. -/
structure Job where
  FilePath : String
  Word : String
  deriving DecidableEq, Repr

/-- `type Result struct` (main.go:21-25): the outcome of processing one file.
`Error = none` models a nil error; an omitted field in a Go struct literal is
zero-valued, hence `WordCount = 0` on the error paths. -/
structure Result where
  FilePath : String
  WordCount : Nat
  Error : Option GoErr
  deriving DecidableEq, Repr

/-- `type FileProcessor struct` (main.go:27-32), without the results channel
(which lives in the pipeline state of the step relation). `WorkerCount` is a
Go `int`, so it can be zero or negative. -/
structure FileProcessor where
  Files : List String
  Word : String
  WorkerCount : Int
  deriving DecidableEq, Repr

/-- `NewFileProcessor` (main.go:35-41). -/
def NewFileProcessor (files : List String) (word : String) (workerCount : Int) :
    FileProcessor :=
  { Files := files, Word := word, WorkerCount := workerCount }

/-- The non-empty-substring loop of Go's `strings.Count`: repeatedly find the
first occurrence of `sub` and resume the search just past it (non-overlapping,
left-to-right, case-sensitive). -/
def goCountAux (sub : List Char) : List Char → Nat
  | [] => 0
  | c :: rest =>
    if sub.isPrefixOf (c :: rest) then
      1 + goCountAux sub (List.drop (sub.length - 1) rest)
    else
      goCountAux sub rest
termination_by s => s.length
decreasing_by
  · simp only [List.length_drop, List.length_cons]
    omega
  · simp only [List.length_cons]
    omega

/-- Go's `strings.Count s sub` (used at main.go:152): for an empty `sub` it
returns the number of runes in `s` plus one; otherwise the number of
non-overlapping occurrences of `sub` in `s`. -/
def stringsCount (s sub : String) : Nat :=
  if sub.toList = [] then s.toList.length + 1
  else goCountAux sub.toList s.toList

/-- The state of one file on disk, as observed through `os.Open` and
`bufio.Scanner`. -/
structure FileModel where
  /-- the error returned by `os.Open`, if any -/
  openError : Option GoErr
  /-- the lines the scanner yields, in order, before it stops -/
  lines : List String
  /-- `scanner.Err()` after the scan loop: `none` on clean end-of-file -/
  scanError : Option GoErr
  deriving DecidableEq, Repr

/-- The `for scanner.Scan()` loop of `CountWord` (main.go:146-161): `i` is the
index of the next per-line cancellation check, `wc` the accumulated count.
Before processing each line the `select` polls `ctx.Done()`; the check at
index `i` observes cancellation iff `cancelAt = some k` with `k ≤ i`.
After the loop, `scanner.Err()` decides between the read-error return and the
clean return. -/
def scanLoop (word : String) (cancelAt : Option Nat) (scanError : Option GoErr)
    (path : String) : List String → Nat → Nat → Result
  | [], _, wc =>
    match scanError with
    | some e => { FilePath := path, WordCount := 0, Error := some e }
    | none => { FilePath := path, WordCount := wc, Error := none }
  | line :: rest, i, wc =>
    match cancelAt with
    | some k =>
      if k ≤ i then
        { FilePath := path, WordCount := 0, Error := some GoErr.canceled }
      else
        scanLoop word cancelAt scanError path rest (i + 1)
          (wc + stringsCount line word)
    | none =>
      scanLoop word cancelAt scanError path rest (i + 1)
        (wc + stringsCount line word)

/-- `CountWord` (main.go:134-162): open the file (returning an error Result on
failure), then scan line by line, polling cancellation before each line and
adding `strings.Count(line, job.Word)` to the running total; report
`scanner.Err()` if the scan stopped on a read error, else the total. -/
def CountWord (file : FileModel) (cancelAt : Option Nat) (job : Job) : Result :=
  match file.openError with
  | some e => { FilePath := job.FilePath, WordCount := 0, Error := some e }
  | none => scanLoop job.Word cancelAt file.scanError job.FilePath file.lines 0 0

/-- The observable status of one worker goroutine spawned by `ProcessFiles`:
blocked in the `select` (`idle`), running `CountWord` on a job (`busy`), or
returned (`exited`). -/
inductive WStatus where
  | idle
  | busy (j : Job)
  | exited
  deriving DecidableEq, Repr

/-- The shared state of one `ProcessFiles` run: the jobs still sitting in the
(buffered, already fully fed and closed) job channel, the status of each
worker, the results published so far in publication order, and whether the
context has been cancelled. -/
structure PState where
  queue : List Job
  workers : List WStatus
  results : List Result
  cancelled : Bool
  deriving DecidableEq, Repr

/-- The job a worker currently holds, if any. -/
def busyJob : WStatus → Option Job
  | .busy j => some j
  | _ => none

/-- The jobs currently held by workers, in worker order. -/
def busyJobs (ws : List WStatus) : List Job := ws.filterMap busyJob

/-- One observable action of the `Worker` loop (main.go:114-131) or of the
external canceller, against a file system `fs` mapping each path to its
`FileModel`:
* `dequeue`: an idle worker's `select` takes the job branch (allowed even
  when cancelled — a Go `select` with two ready branches picks either);
* `publish`: a busy worker finishes `CountWord` and sends the result
  (main.go:124-125); if the context was never cancelled, every per-line poll
  of `ctx.Done()` missed, so the scan's `cancelAt` must be `none`;
* `exitClosed`: an idle worker's receive finds the job channel closed and
  drained and returns (main.go:120-122);
* `exitCancelled`: an idle worker's `select` takes the `ctx.Done()` branch
  and returns (main.go:126-128);
* `cancel`: the external caller cancels the shared context. -/
inductive Step (fs : String → FileModel) : PState → PState → Prop where
  | dequeue (s : PState) (j : Job) (rest : List Job) (l1 l2 : List WStatus)
      (hq : s.queue = j :: rest) (hw : s.workers = l1 ++ WStatus.idle :: l2) :
      Step fs s { s with queue := rest, workers := l1 ++ WStatus.busy j :: l2 }
  | publish (s : PState) (j : Job) (c : Option Nat) (l1 l2 : List WStatus)
      (hw : s.workers = l1 ++ WStatus.busy j :: l2)
      (hc : s.cancelled = false → c = none) :
      Step fs s { s with workers := l1 ++ WStatus.idle :: l2,
                         results := s.results ++ [CountWord (fs j.FilePath) c j] }
  | exitClosed (s : PState) (l1 l2 : List WStatus)
      (hq : s.queue = []) (hw : s.workers = l1 ++ WStatus.idle :: l2) :
      Step fs s { s with workers := l1 ++ WStatus.exited :: l2 }
  | exitCancelled (s : PState) (l1 l2 : List WStatus)
      (hc : s.cancelled = true) (hw : s.workers = l1 ++ WStatus.idle :: l2) :
      Step fs s { s with workers := l1 ++ WStatus.exited :: l2 }
  | cancel (s : PState) :
      Step fs s { s with cancelled := true }

/-- The jobs `ProcessFiles` feeds to the workers: one per file, in file-list
order, each carrying the target word (main.go:102-104). -/
def mkJobs (fp : FileProcessor) : List Job :=
  fp.Files.map (fun p => { FilePath := p, Word := fp.Word })

/-- The pipeline state right after `ProcessFiles` has created the channels,
spawned `max(WorkerCount, 0)` workers (the `for i := 0; i < WorkerCount`
loop runs `WorkerCount.toNat` times), and enqueued all jobs: the buffered job
channel has capacity `len(Files)`, so every job is enqueued without blocking. -/
def initState (fp : FileProcessor) : PState :=
  { queue := mkJobs fp,
    workers := List.replicate fp.WorkerCount.toNat WStatus.idle,
    results := [],
    cancelled := false }

/-- Reachability in the scheduling model. -/
def Reach (fs : String → FileModel) (fp : FileProcessor) (s : PState) : Prop :=
  Relation.ReflTransGen (Step fs) (initState fp) s

/-- All workers have returned: the point at which `wg.Wait()` (main.go:108)
unblocks and `ProcessFiles` closes the result channel. -/
def Terminal (s : PState) : Prop := ∀ w ∈ s.workers, w = WStatus.exited

instance (s : PState) : Decidable (Terminal s) := by
  unfold Terminal; infer_instance

/-- The Result a job produces when processed without observing cancellation. -/
def normResult (fs : String → FileModel) (j : Job) : Result :=
  CountWord (fs j.FilePath) none j

/-- All results a state is still owed plus those already published: published
results, then the eventual results of jobs being processed, then the eventual
results of jobs still queued (all taken as uncancelled). -/
def outstanding (fs : String → FileModel) (s : PState) : List Result :=
  s.results ++ (busyJobs s.workers).map (normResult fs) ++
    s.queue.map (normResult fs)

/-- The process-wide viper library state as observed through the getters
`LoadConfig` calls after its `SetDefault` calls (main.go:64-66):
`readConfigError` is what `viper.ReadInConfig` returned; `files`, `word` and
`workerCount` are the values of `GetStringSlice "files"`, `GetString "word"`
and `GetInt "workerCount"`; `filesString` is the value of
`GetString "files"` used by the env-override branch. -/
structure ViperState where
  readConfigError : Option GoErr
  files : List String
  filesString : String
  word : String
  workerCount : Int
  deriving DecidableEq, Repr

/-- `LoadConfig` (main.go:44-85): a failure of `ReadInConfig` is only printed
(main.go:59-61), never returned; none of the extracted values is validated;
the comma-split override replaces the file list whenever `GetString "files"`
is non-empty (main.go:74-76); the returned error is the literal `nil` of
main.go:84. -/
def LoadConfig (v : ViperState) : FileProcessor × Option GoErr :=
  let files := if v.filesString ≠ "" then v.filesString.splitOn "," else v.files
  (NewFileProcessor files v.word v.workerCount, none)

/-- The `if err != nil` branch of `main` (main.go:175-178): `main` aborts
before any processing exactly when `LoadConfig` returns a non-nil error. -/
def mainConfigAborted (v : ViperState) : Bool :=
  ((LoadConfig v).2).isSome

/-- The orchestration actions the main goroutine of `ProcessFiles`
(main.go:88-111) performs, in program order. -/
inductive PEvent where
  | makeJobQueue (capacity : Nat)
  | makeResultChan (capacity : Nat)
  | spawnWorker (i : Nat)
  | enqueue (j : Job)
  | closeJobQueue
  | waitWorkers
  | closeResultChan
  deriving DecidableEq, Repr

/-- The `for i := 0; i < workerCount; i++ { go fp.Worker(...) }` loop
(main.go:96-99): spawn events for `i = 0, …, n-1`, in order. -/
def spawnLoopEvents : Nat → List PEvent
  | 0 => []
  | n + 1 => spawnLoopEvents n ++ [PEvent.spawnWorker n]

/-- The `for _, filepath := range fp.Files { jobs <- Job{...} }` loop
(main.go:102-104): one enqueue per file, in file-list order, each job pairing
the path with the target word. -/
def enqueueLoopEvents (word : String) : List String → List PEvent
  | [] => []
  | p :: rest =>
    PEvent.enqueue { FilePath := p, Word := word } :: enqueueLoopEvents word rest

/-- The straight-line structure of `ProcessFiles` (main.go:88-111): make the
job channel with capacity `len(fp.Files)`, make the result channel with the
same capacity, spawn the workers (the loop runs `WorkerCount.toNat` times,
since a `for i := 0; i < n` loop with `n ≤ 0` runs zero times), enqueue every
job, close the job channel, wait on the `WaitGroup`, close the result
channel. -/
def ProcessFilesEvents (fp : FileProcessor) : List PEvent :=
  PEvent.makeJobQueue fp.Files.length ::
    PEvent.makeResultChan fp.Files.length ::
      (spawnLoopEvents fp.WorkerCount.toNat ++
        enqueueLoopEvents fp.Word fp.Files ++
        [PEvent.closeJobQueue, PEvent.waitWorkers, PEvent.closeResultChan])

/-- Recognizes a worker-spawn event. -/
def isSpawnEvent : PEvent → Bool
  | .spawnWorker _ => true
  | _ => false

/-- A one-file file system used by concrete witness runs: the only file holds
two lines containing "go" twice. -/
def fsOne : String → FileModel :=
  fun _ => { openError := none, lines := ["go go", "no match here"], scanError := none }

/-- A one-file, one-worker configuration for concrete witness runs. -/
def fpOne : FileProcessor :=
  { Files := ["a.txt"], Word := "go", WorkerCount := 1 }

/-- A two-file file system used by concrete witness runs. -/
def fsTwo : String → FileModel := fun p =>
  if p = "a.txt" then { openError := none, lines := ["go is fun"], scanError := none }
  else { openError := none, lines := ["going going"], scanError := none }

/-- The two-file configuration run with one worker. -/
def fpTwoSeq : FileProcessor :=
  { Files := ["a.txt", "b.txt"], Word := "go", WorkerCount := 1 }

/-- The two-file configuration run with two workers. -/
def fpTwoPar : FileProcessor :=
  { Files := ["a.txt", "b.txt"], Word := "go", WorkerCount := 2 }

/-- A file system in which opening the only file fails, used by concrete
witness runs. -/
def fsMissing : String → FileModel :=
  fun _ =>
    { openError := some (GoErr.openFail "open missing.txt: no such file or directory"),
      lines := [], scanError := none }

/-- A configuration whose only file cannot be opened. -/
def fpMissing : FileProcessor :=
  { Files := ["missing.txt"], Word := "go", WorkerCount := 1 }

/-- The terminal state of the complete one-worker run of `fpOne`. -/
def sOneFinal : PState :=
  { queue := [], workers := [WStatus.exited],
    results := (mkJobs fpOne).map (normResult fsOne), cancelled := false }

/-- The terminal state of the complete one-worker run of `fpTwoSeq`. -/
def sTwoSeqFinal : PState :=
  { queue := [], workers := [WStatus.exited],
    results := (mkJobs fpTwoSeq).map (normResult fsTwo), cancelled := false }

/-- The terminal state of the complete two-worker run of `fpTwoPar`. -/
def sTwoParFinal : PState :=
  { queue := [], workers := [WStatus.exited, WStatus.exited],
    results := (mkJobs fpTwoPar).map (normResult fsTwo), cancelled := false }

/-- The terminal state of the complete one-worker run of `fpMissing`. -/
def sMissingFinal : PState :=
  { queue := [], workers := [WStatus.exited],
    results := (mkJobs fpMissing).map (normResult fsMissing), cancelled := false }

/-- With no cancellation and a clean scan, the loop accumulates the sum of the
per-line `strings.Count` values. -/
lemma scanLoop_none_none (word path : String) :
    ∀ (lines : List String) (i wc : Nat),
      scanLoop word none none path lines i wc =
        { FilePath := path,
          WordCount := wc + (lines.map (fun l => stringsCount l word)).sum,
          Error := none } := by
  intro lines
  induction lines with
  | nil => intro i wc; simp [scanLoop]
  | cons line rest ih =>
    intro i wc
    simp only [scanLoop, ih, List.map_cons, List.sum_cons]
    congr 1
    omega

lemma busyJobs_append (l1 l2 : List WStatus) :
    busyJobs (l1 ++ l2) = busyJobs l1 ++ busyJobs l2 := by
  simp [busyJobs, List.filterMap_append]

lemma busyJobs_replicate_idle (n : Nat) :
    busyJobs (List.replicate n WStatus.idle) = [] := by
  induction n with
  | zero => rfl
  | succ n ih =>
    simp only [List.replicate_succ, busyJobs, List.filterMap_cons] at ih ⊢
    simp [busyJob, ih]

/-- No step clears the cancellation flag: a run that ends uncancelled was
never cancelled. -/
lemma step_cancelled_rev {fs : String → FileModel} {s t : PState}
    (hst : Step fs s t) (hc : t.cancelled = false) : s.cancelled = false := by
  cases hst <;> simp_all

/-- Every step preserves the number of workers. -/
lemma step_workers_length {fs : String → FileModel} {s t : PState}
    (hst : Step fs s t) : t.workers.length = s.workers.length := by
  cases hst <;> simp_all

/-- Every step preserves `published + in-flight + queued = total`. -/
lemma step_count {fs : String → FileModel} {s t : PState} (hst : Step fs s t) :
    t.results.length + (busyJobs t.workers).length + t.queue.length =
      s.results.length + (busyJobs s.workers).length + s.queue.length := by
  cases hst with
  | dequeue j rest l1 l2 hq hw =>
    simp only [hq, hw, busyJobs, List.filterMap_append, List.filterMap_cons,
      busyJob, List.length_append, List.length_cons, List.length_nil]
    omega
  | publish j c l1 l2 hw hc =>
    simp only [hw, busyJobs, List.filterMap_append, List.filterMap_cons,
      busyJob, List.length_append, List.length_cons, List.length_nil]
    omega
  | exitClosed l1 l2 hq hw =>
    simp only [hw, busyJobs, List.filterMap_append, List.filterMap_cons,
      busyJob, List.length_append]
  | exitCancelled l1 l2 hc hw =>
    simp only [hw, busyJobs, List.filterMap_append, List.filterMap_cons,
      busyJob, List.length_append]
  | cancel => rfl

/-- As long as the run is uncancelled, each step permutes the outstanding
results: a dequeue moves a job's eventual result from the queue to a worker,
a publish moves it from a worker to the published list (with `cancelAt = none`
forced by the uncancelled flag), and exits move nothing. -/
lemma step_outstanding_perm {fs : String → FileModel} {s t : PState}
    (hst : Step fs s t) (hc : t.cancelled = false) :
    (outstanding fs t).Perm (outstanding fs s) := by
  cases hst with
  | dequeue j rest l1 l2 hq hw =>
    rw [List.perm_iff_count]
    intro a
    simp only [outstanding, hq, hw, busyJobs, List.filterMap_append,
      List.filterMap_cons, busyJob, List.map_append, List.map_cons,
      List.count_append, List.count_cons]
    split <;> omega
  | publish j c l1 l2 hw hcc =>
    have hs : s.cancelled = false := by simpa using hc
    have hcn : c = none := hcc hs
    subst hcn
    rw [List.perm_iff_count]
    intro a
    simp only [outstanding, hw, busyJobs, List.filterMap_append,
      List.filterMap_cons, busyJob, List.map_append, List.map_cons,
      List.count_append, List.count_cons, normResult, List.count_nil]
    split <;> omega
  | exitClosed l1 l2 hq hw =>
    simp [outstanding, hw, busyJobs, List.filterMap_append,
      List.filterMap_cons, busyJob]
  | exitCancelled l1 l2 hcc hw =>
    simp [outstanding, hw, busyJobs, List.filterMap_append,
      List.filterMap_cons, busyJob]
  | cancel => simp at hc

/-- In an uncancelled run, once some worker has exited the queue is empty
(an uncancelled worker exits only through the closed-and-drained queue, and
the queue never grows). -/
lemma step_exited_queue {fs : String → FileModel} {s t : PState}
    (hst : Step fs s t)
    (ih : s.cancelled = false → WStatus.exited ∈ s.workers → s.queue = [])
    (hc : t.cancelled = false) :
    WStatus.exited ∈ t.workers → t.queue = [] := by
  cases hst with
  | dequeue j rest l1 l2 hq hw =>
    intro hmem
    have hs : s.cancelled = false := by simpa using hc
    have hmem' : WStatus.exited ∈ s.workers := by
      rw [hw]
      simp only [List.mem_append, List.mem_cons] at hmem ⊢
      rcases hmem with h | h | h
      · exact Or.inl h
      · exact absurd h (by simp)
      · exact Or.inr (Or.inr h)
    have := ih hs hmem'
    rw [hq] at this
    exact absurd this (by simp)
  | publish j c l1 l2 hw hcc =>
    intro hmem
    have hs : s.cancelled = false := by simpa using hc
    apply ih hs
    rw [hw]
    simp only [List.mem_append, List.mem_cons] at hmem ⊢
    rcases hmem with h | h | h
    · exact Or.inl h
    · exact absurd h (by simp)
    · exact Or.inr (Or.inr h)
  | exitClosed l1 l2 hq hw =>
    intro _
    exact hq
  | exitCancelled l1 l2 hcc hw =>
    have hs : s.cancelled = false := by simpa using hc
    rw [hs] at hcc
    exact absurd hcc (by simp)
  | cancel => simp at hc

/-- Along any reachable run, `published + in-flight + queued` equals the
number of files. -/
lemma reach_count {fs : String → FileModel} {fp : FileProcessor} {s : PState}
    (hr : Reach fs fp s) :
    s.results.length + (busyJobs s.workers).length + s.queue.length =
      fp.Files.length := by
  induction hr with
  | refl => simp [initState, busyJobs_replicate_idle, mkJobs]
  | tail hab hstep ih => rw [step_count hstep]; exact ih

/-- Every reachable state has exactly the spawned number of workers. -/
lemma reach_workers_length {fs : String → FileModel} {fp : FileProcessor}
    {s : PState} (hr : Reach fs fp s) :
    s.workers.length = fp.WorkerCount.toNat := by
  induction hr with
  | refl => simp [initState]
  | tail hab hstep ih => rw [step_workers_length hstep]; exact ih

/-- In an uncancelled reachable state, the outstanding results are a
permutation of the uncancelled results of all jobs. -/
lemma reach_outstanding_perm {fs : String → FileModel} {fp : FileProcessor}
    {s : PState} (hr : Reach fs fp s) :
    s.cancelled = false →
      (outstanding fs s).Perm ((mkJobs fp).map (normResult fs)) := by
  induction hr with
  | refl =>
    intro _
    simp [outstanding, initState, busyJobs_replicate_idle]
  | tail hab hstep ih =>
    intro hc
    exact (step_outstanding_perm hstep hc).trans (ih (step_cancelled_rev hstep hc))

/-- In an uncancelled reachable state with an exited worker, the job queue is
empty. -/
lemma reach_exited_queue {fs : String → FileModel} {fp : FileProcessor}
    {s : PState} (hr : Reach fs fp s) :
    s.cancelled = false → WStatus.exited ∈ s.workers → s.queue = [] := by
  induction hr with
  | refl =>
    intro _ hmem
    simp only [initState] at hmem
    exact absurd (List.eq_of_mem_replicate hmem) (by simp)
  | tail hab hstep ih =>
    exact step_exited_queue hstep ih

lemma busyJobs_eq_nil_of_all_exited :
    ∀ ws : List WStatus, (∀ w ∈ ws, w = WStatus.exited) → busyJobs ws = [] := by
  intro ws
  induction ws with
  | nil => intro _; rfl
  | cons w rest ih =>
    intro h
    have hw : w = WStatus.exited := h w (List.mem_cons_self _ _)
    subst hw
    simp only [busyJobs, List.filterMap_cons, busyJob]
    exact ih (fun x hx => h x (List.mem_cons_of_mem _ hx))

/-- When all workers have exited, published results plus still-queued jobs
account for every file: each published Result came from exactly one dequeued
Job, and a Job never dequeued left no Result. -/
lemma terminal_results_count {fs : String → FileModel} {fp : FileProcessor}
    {s : PState} (hr : Reach fs fp s) (ht : Terminal s) :
    s.results.length + s.queue.length = fp.Files.length := by
  have h := reach_count hr
  rw [busyJobs_eq_nil_of_all_exited s.workers ht] at h
  simpa using h

/-- An uncancelled terminal run with at least one worker published exactly the
uncancelled result of every job, as a multiset. -/
lemma terminal_results_perm {fs : String → FileModel} {fp : FileProcessor}
    {s : PState} (hr : Reach fs fp s) (ht : Terminal s)
    (hc : s.cancelled = false) (hw : 1 ≤ fp.WorkerCount.toNat) :
    s.results.Perm ((mkJobs fp).map (normResult fs)) := by
  have hlen : s.workers.length = fp.WorkerCount.toNat := reach_workers_length hr
  have hne : s.workers ≠ [] := by
    intro h
    rw [h] at hlen
    simp at hlen
    omega
  obtain ⟨w, ws', hws⟩ := List.exists_cons_of_ne_nil hne
  have hwex : w = WStatus.exited := ht w (by rw [hws]; exact List.mem_cons_self _ _)
  have hmem : WStatus.exited ∈ s.workers := by
    rw [hws, ← hwex]
    exact List.mem_cons_self _ _
  have hq : s.queue = [] := reach_exited_queue hr hc hmem
  have hperm := reach_outstanding_perm hr hc
  simp only [outstanding, hq, busyJobs_eq_nil_of_all_exited s.workers ht,
    List.map_nil, List.append_nil] at hperm
  exact hperm

/-- With no cancellation and a read error, the loop reports the error with a
zero count. -/
lemma scanLoop_scanErr (word path : String) (e : GoErr) :
    ∀ (lines : List String) (i wc : Nat),
      scanLoop word none (some e) path lines i wc =
        { FilePath := path, WordCount := 0, Error := some e } := by
  intro lines
  induction lines with
  | nil => intro i wc; simp [scanLoop]
  | cons line rest ih => intro i wc; simp [scanLoop, ih]

/-- If cancellation fires at check `k` and at least one line remains at or
after check `i ≤ k`, the loop ends in a cancellation Result with count 0. -/
lemma scanLoop_cancel (word path : String) (scanError : Option GoErr) (k : Nat) :
    ∀ (lines : List String) (i wc : Nat), i ≤ k → k < i + lines.length →
      scanLoop word (some k) scanError path lines i wc =
        { FilePath := path, WordCount := 0, Error := some GoErr.canceled } := by
  intro lines
  induction lines with
  | nil =>
    intro i wc h1 h2
    simp only [List.length_nil, Nat.add_zero] at h2
    omega
  | cons line rest ih =>
    intro i wc h1 h2
    simp only [scanLoop]
    by_cases hk : k ≤ i
    · simp [hk]
    · simp only [if_neg hk]
      exact ih (i + 1) _ (by omega) (by simp at h2 ⊢; omega)

/-- Every exit of the scan loop reports the path it was given. -/
lemma scanLoop_filePath (word path : String) (cancelAt : Option Nat)
    (scanError : Option GoErr) :
    ∀ (lines : List String) (i wc : Nat),
      (scanLoop word cancelAt scanError path lines i wc).FilePath = path := by
  intro lines
  induction lines with
  | nil => intro i wc; cases scanError <;> simp [scanLoop]
  | cons line rest ih =>
    intro i wc
    cases cancelAt with
    | none => simp only [scanLoop]; exact ih (i + 1) _
    | some k =>
      simp only [scanLoop]
      by_cases hk : k ≤ i
      · simp [hk]
      · simp only [if_neg hk]; exact ih (i + 1) _

/-- A single worker can drain any queue sequentially: dequeue, process and
publish each job in order, then exit on the closed, drained queue. -/
lemma seq_run (fs : String → FileModel) :
    ∀ (q : List Job) (res : List Result),
      Relation.ReflTransGen (Step fs)
        { queue := q, workers := [WStatus.idle], results := res, cancelled := false }
        { queue := [], workers := [WStatus.exited],
          results := res ++ q.map (normResult fs), cancelled := false } := by
  intro q
  induction q with
  | nil =>
    intro res
    have hstep : Step fs
        { queue := [], workers := [WStatus.idle], results := res, cancelled := false }
        { queue := [], workers := [WStatus.exited], results := res,
          cancelled := false } :=
      Step.exitClosed _ [] [] rfl rfl
    simpa using Relation.ReflTransGen.single hstep
  | cons j rest ih =>
    intro res
    have h1 : Step fs
        { queue := j :: rest, workers := [WStatus.idle], results := res,
          cancelled := false }
        { queue := rest, workers := [WStatus.busy j], results := res,
          cancelled := false } :=
      Step.dequeue _ j rest [] [] rfl rfl
    have h2 : Step fs
        { queue := rest, workers := [WStatus.busy j], results := res,
          cancelled := false }
        { queue := rest, workers := [WStatus.idle],
          results := res ++ [normResult fs j], cancelled := false } :=
      Step.publish _ j none [] [] rfl (fun _ => rfl)
    have h3 := ih (res ++ [normResult fs j])
    have h4 := Relation.ReflTransGen.head h1 (Relation.ReflTransGen.head h2 h3)
    simpa [List.append_assoc] using h4

/-- The canonical complete run of a one-worker configuration. -/
lemma reach_seq (fs : String → FileModel) (files : List String) (word : String) :
    Reach fs { Files := files, Word := word, WorkerCount := 1 }
      { queue := [], workers := [WStatus.exited],
        results := (mkJobs { Files := files, Word := word, WorkerCount := 1 }).map
          (normResult fs),
        cancelled := false } := by
  have h := seq_run fs (mkJobs { Files := files, Word := word, WorkerCount := 1 }) []
  simpa [Reach, initState, List.replicate_one] using h

/-- A concrete complete two-worker run of the two-file configuration: both
workers dequeue, both publish, both exit. -/
lemma reach_two :
    Reach fsTwo fpTwoPar
      { queue := [], workers := [WStatus.exited, WStatus.exited],
        results := (mkJobs fpTwoPar).map (normResult fsTwo),
        cancelled := false } := by
  have h1 : Step fsTwo
      { queue := [{ FilePath := "a.txt", Word := "go" },
                  { FilePath := "b.txt", Word := "go" }],
        workers := [WStatus.idle, WStatus.idle], results := [], cancelled := false }
      { queue := [{ FilePath := "b.txt", Word := "go" }],
        workers := [WStatus.busy { FilePath := "a.txt", Word := "go" }, WStatus.idle],
        results := [], cancelled := false } :=
    Step.dequeue _ _ _ [] [WStatus.idle] rfl rfl
  have h2 : Step fsTwo
      { queue := [{ FilePath := "b.txt", Word := "go" }],
        workers := [WStatus.busy { FilePath := "a.txt", Word := "go" }, WStatus.idle],
        results := [], cancelled := false }
      { queue := [],
        workers := [WStatus.busy { FilePath := "a.txt", Word := "go" },
                    WStatus.busy { FilePath := "b.txt", Word := "go" }],
        results := [], cancelled := false } :=
    Step.dequeue _ _ _ [WStatus.busy { FilePath := "a.txt", Word := "go" }] [] rfl rfl
  have h3 : Step fsTwo
      { queue := [],
        workers := [WStatus.busy { FilePath := "a.txt", Word := "go" },
                    WStatus.busy { FilePath := "b.txt", Word := "go" }],
        results := [], cancelled := false }
      { queue := [],
        workers := [WStatus.idle, WStatus.busy { FilePath := "b.txt", Word := "go" }],
        results := [normResult fsTwo { FilePath := "a.txt", Word := "go" }],
        cancelled := false } :=
    Step.publish _ _ none [] [WStatus.busy { FilePath := "b.txt", Word := "go" }]
      rfl (fun _ => rfl)
  have h4 : Step fsTwo
      { queue := [],
        workers := [WStatus.idle, WStatus.busy { FilePath := "b.txt", Word := "go" }],
        results := [normResult fsTwo { FilePath := "a.txt", Word := "go" }],
        cancelled := false }
      { queue := [], workers := [WStatus.idle, WStatus.idle],
        results := [normResult fsTwo { FilePath := "a.txt", Word := "go" },
                    normResult fsTwo { FilePath := "b.txt", Word := "go" }],
        cancelled := false } :=
    Step.publish _ _ none [WStatus.idle] [] rfl (fun _ => rfl)
  have h5 : Step fsTwo
      { queue := [], workers := [WStatus.idle, WStatus.idle],
        results := [normResult fsTwo { FilePath := "a.txt", Word := "go" },
                    normResult fsTwo { FilePath := "b.txt", Word := "go" }],
        cancelled := false }
      { queue := [], workers := [WStatus.exited, WStatus.idle],
        results := [normResult fsTwo { FilePath := "a.txt", Word := "go" },
                    normResult fsTwo { FilePath := "b.txt", Word := "go" }],
        cancelled := false } :=
    Step.exitClosed _ [] [WStatus.idle] rfl rfl
  have h6 : Step fsTwo
      { queue := [], workers := [WStatus.exited, WStatus.idle],
        results := [normResult fsTwo { FilePath := "a.txt", Word := "go" },
                    normResult fsTwo { FilePath := "b.txt", Word := "go" }],
        cancelled := false }
      { queue := [], workers := [WStatus.exited, WStatus.exited],
        results := [normResult fsTwo { FilePath := "a.txt", Word := "go" },
                    normResult fsTwo { FilePath := "b.txt", Word := "go" }],
        cancelled := false } :=
    Step.exitClosed _ [WStatus.exited] [] rfl rfl
  exact Relation.ReflTransGen.head h1 (Relation.ReflTransGen.head h2
    (Relation.ReflTransGen.head h3 (Relation.ReflTransGen.head h4
      (Relation.ReflTransGen.head h5 (Relation.ReflTransGen.single h6)))))

/-- With zero workers nothing can ever act except external cancellation: no
job is ever dequeued and no Result is ever published. -/
lemma reach_zero_workers {fs : String → FileModel} {fp : FileProcessor}
    {s : PState} (hr : Reach fs fp s) (hw : fp.WorkerCount.toNat = 0) :
    s.results = [] ∧ s.queue = mkJobs fp := by
  induction hr with
  | refl => simp [initState]
  | tail hab hstep ih =>
    obtain ⟨hres, hq⟩ := ih
    cases hstep with
    | dequeue j rest l1 l2 hq' hw' =>
      have hlen := reach_workers_length hab
      rw [hw', hw] at hlen
      simp at hlen
    | publish j c l1 l2 hw' hc' =>
      have hlen := reach_workers_length hab
      rw [hw', hw] at hlen
      simp at hlen
    | exitClosed l1 l2 hq' hw' =>
      have hlen := reach_workers_length hab
      rw [hw', hw] at hlen
      simp at hlen
    | exitCancelled l1 l2 hc' hw' =>
      have hlen := reach_workers_length hab
      rw [hw', hw] at hlen
      simp at hlen
    | cancel => exact ⟨hres, hq⟩

lemma spawnLoopEvents_length (n : Nat) : (spawnLoopEvents n).length = n := by
  induction n with
  | zero => rfl
  | succ n ih => simp [spawnLoopEvents, ih]

lemma spawnLoopEvents_countP (n : Nat) :
    (spawnLoopEvents n).countP isSpawnEvent = n := by
  induction n with
  | zero => rfl
  | succ n ih => simp [spawnLoopEvents, List.countP_append, ih, isSpawnEvent]

lemma enqueueLoopEvents_eq_map (word : String) :
    ∀ files : List String,
      enqueueLoopEvents word files =
        files.map (fun p => PEvent.enqueue { FilePath := p, Word := word }) := by
  intro files
  induction files with
  | nil => rfl
  | cons p rest ih => simp [enqueueLoopEvents, ih]

lemma enqueueLoopEvents_countP (word : String) (files : List String) :
    (enqueueLoopEvents word files).countP isSpawnEvent = 0 := by
  induction files with
  | nil => rfl
  | cons p rest ih => simp [enqueueLoopEvents, List.countP_cons, ih, isSpawnEvent]

lemma spawnLoopEvents_drop (n : Nat) (l : List PEvent) :
    (spawnLoopEvents n ++ l).drop n = l := by
  have h : (spawnLoopEvents n ++ l).drop n =
      (spawnLoopEvents n ++ l).drop (spawnLoopEvents n).length := by
    rw [spawnLoopEvents_length]
  rw [h, List.drop_left]

/-- Claim C1: for every readable file scanned to end-of-file with no read
error and no cancellation, `CountWord` returns a Result with no error whose
WordCount is the sum, over the file's lines, of the non-overlapping,
case-sensitive substring occurrences of the target word in that line; on the
example file with lines "go is fun" / "I go home" / "going going" and word
"go" the count is 4. -/
theorem C1_countWord_total_sum :
    (∀ (lines : List String) (word path : String),
      CountWord { openError := none, lines := lines, scanError := none } none
          { FilePath := path, Word := word } =
        { FilePath := path,
          WordCount := (lines.map (fun l => stringsCount l word)).sum,
          Error := none }) ∧
    CountWord { openError := none,
                lines := ["go is fun", "I go home", "going going"],
                scanError := none } none
        { FilePath := "sample.txt", Word := "go" } =
      { FilePath := "sample.txt", WordCount := 4, Error := none } := by
  constructor
  · intro lines word path
    simpa [CountWord] using scanLoop_none_none word path lines 0 0
  · simp [CountWord, scanLoop, stringsCount, goCountAux]

/-- Claim C4: `CountWord` polls the cancellation token before processing each
line; as soon as a poll observes cancellation (poll `k` with at least one
line left), it returns a Result with the cancellation error and WordCount 0 —
the partial count is discarded, whatever the pending scanner error would have
been. -/
theorem C4_cancellation_discards_count :
    ∀ (lines : List String) (scanError : Option GoErr) (word path : String)
      (k : Nat), k < lines.length →
      CountWord { openError := none, lines := lines, scanError := scanError }
          (some k) { FilePath := path, Word := word } =
        { FilePath := path, WordCount := 0, Error := some GoErr.canceled } := by
  intro lines scanError word path k hk
  simpa [CountWord] using
    scanLoop_cancel word path scanError k lines 0 0 (Nat.zero_le k) (by omega)

/-- Concrete instance of C4: cancelling at the first per-line check of a
two-line file yields the cancellation Result with count 0. -/
theorem C4_cancellation_discards_count_witness :
    1 < (["go go", "go stop"] : List String).length ∧
    CountWord { openError := none, lines := ["go go", "go stop"],
                scanError := none } (some 1) { FilePath := "a.txt", Word := "go" } =
      { FilePath := "a.txt", WordCount := 0, Error := some GoErr.canceled } :=
  ⟨by simp,
   C4_cancellation_discards_count ["go go", "go stop"] none "go" "a.txt" 1 (by simp)⟩

/-- Claim C5: an open failure yields a Result carrying that error with
WordCount 0 and no scanning; a mid-scan read error yields a Result carrying
that error with the accumulated count discarded (WordCount 0); and such
errors stay local to their Job — an uncancelled complete run still emits one
Result per file. -/
theorem C5_errors_local_to_job :
    (∀ (e : GoErr) (lines : List String) (scanError : Option GoErr)
        (cancelAt : Option Nat) (word path : String),
      CountWord { openError := some e, lines := lines, scanError := scanError }
          cancelAt { FilePath := path, Word := word } =
        { FilePath := path, WordCount := 0, Error := some e }) ∧
    (∀ (e : GoErr) (lines : List String) (word path : String),
      CountWord { openError := none, lines := lines, scanError := some e } none
          { FilePath := path, Word := word } =
        { FilePath := path, WordCount := 0, Error := some e }) ∧
    (∀ (fs : String → FileModel) (fp : FileProcessor) (s : PState),
      Reach fs fp s → Terminal s → s.cancelled = false →
      1 ≤ fp.WorkerCount.toNat → s.results.length = fp.Files.length) := by
  refine ⟨?_, ?_, ?_⟩
  · intro e lines scanError cancelAt word path
    simp [CountWord]
  · intro e lines word path
    simp [CountWord, scanLoop_scanErr]
  · intro fs fp s hr ht hc hw
    have h := (terminal_results_perm hr ht hc hw).length_eq
    simpa [mkJobs] using h

/-- Concrete instance of C5: an unopenable file produces its error Result,
a scan error produces its error Result, and the complete run over the
unopenable file still emits exactly one Result. -/
theorem C5_errors_local_to_job_witness :
    CountWord { openError := some (GoErr.openFail "no such file"), lines := [],
                scanError := none } none { FilePath := "missing.txt", Word := "go" } =
      { FilePath := "missing.txt", WordCount := 0,
        Error := some (GoErr.openFail "no such file") } ∧
    CountWord { openError := none, lines := ["abc"],
                scanError := some (GoErr.scanFail "token too long") } none
        { FilePath := "big.txt", Word := "go" } =
      { FilePath := "big.txt", WordCount := 0,
        Error := some (GoErr.scanFail "token too long") } ∧
    sMissingFinal.results.length = fpMissing.Files.length :=
  ⟨C5_errors_local_to_job.1 _ _ _ _ _ _,
   C5_errors_local_to_job.2.1 _ _ _ _,
   C5_errors_local_to_job.2.2 fsMissing fpMissing sMissingFinal
     (reach_seq fsMissing ["missing.txt"] "go") (by decide) rfl (by decide)⟩

/-- Claim C10: on every exit path of `CountWord` — open failure,
cancellation, read error, clean end-of-file — the returned Result's FilePath
equals the FilePath of the Job being processed. -/
theorem C10_result_filePath_matches_job :
    ∀ (file : FileModel) (cancelAt : Option Nat) (job : Job),
      (CountWord file cancelAt job).FilePath = job.FilePath := by
  intro file cancelAt job
  cases hfo : file.openError with
  | some e => simp [CountWord, hfo]
  | none => simp [CountWord, hfo, scanLoop_filePath]

/-- Claim C2: whenever all workers have finished, the Results emitted plus
the jobs never picked up account exactly for all files (so a Job enqueued but
never dequeued produces no Result, and each dispatched Job produced exactly
one Result); and in an uncancelled run with at least one worker, the Results
are exactly — as a multiset — one uncancelled Result per enqueued Job, so
their number equals the number of files. -/
theorem C2_one_result_per_dispatched_job :
    ∀ (fs : String → FileModel) (fp : FileProcessor) (s : PState),
      Reach fs fp s → Terminal s →
      (s.results.length + s.queue.length = fp.Files.length) ∧
      (s.cancelled = false → 1 ≤ fp.WorkerCount.toNat →
        s.results.Perm ((mkJobs fp).map (normResult fs))) := by
  intro fs fp s hr ht
  exact ⟨terminal_results_count hr ht, fun hc hw => terminal_results_perm hr ht hc hw⟩

/-- Concrete instance of C2: the complete one-worker run over one file emits
exactly one Result, the uncancelled Result of its job. -/
theorem C2_one_result_per_dispatched_job_witness :
    (sOneFinal.results.length + sOneFinal.queue.length = fpOne.Files.length) ∧
    (sOneFinal.cancelled = false → 1 ≤ fpOne.WorkerCount.toNat →
      sOneFinal.results.Perm ((mkJobs fpOne).map (normResult fsOne))) :=
  C2_one_result_per_dispatched_job fsOne fpOne sOneFinal
    (reach_seq fsOne ["a.txt"] "go") (by decide)

/-- Claim C7: two complete uncancelled runs over the same files, file
contents and word, with any two worker counts ≥ 1, emit the same multiset of
Results (hence of (file path, word count) pairs); only the order may differ. -/
theorem C7_results_independent_of_worker_count :
    ∀ (fs : String → FileModel) (files : List String) (word : String)
      (w1 w2 : Int) (s1 s2 : PState),
      Reach fs { Files := files, Word := word, WorkerCount := w1 } s1 →
      Terminal s1 → s1.cancelled = false → 1 ≤ w1.toNat →
      Reach fs { Files := files, Word := word, WorkerCount := w2 } s2 →
      Terminal s2 → s2.cancelled = false → 1 ≤ w2.toNat →
      s1.results.Perm s2.results := by
  intro fs files word w1 w2 s1 s2 hr1 ht1 hc1 hw1 hr2 ht2 hc2 hw2
  have h1 := terminal_results_perm hr1 ht1 hc1 hw1
  have h2 := terminal_results_perm hr2 ht2 hc2 hw2
  simp only [mkJobs] at h1 h2
  exact h1.trans h2.symm

/-- Concrete instance of C7: the one-worker and two-worker complete runs over
the same two files emit the same multiset of Results. -/
theorem C7_results_independent_of_worker_count_witness :
    sTwoSeqFinal.results.Perm sTwoParFinal.results :=
  C7_results_independent_of_worker_count fsTwo ["a.txt", "b.txt"] "go" 1 2
    sTwoSeqFinal sTwoParFinal (reach_seq fsTwo ["a.txt", "b.txt"] "go")
    (by decide) rfl (by decide) reach_two (by decide) rfl (by decide)

/-- Claim C3 fails on the code: `LoadConfig` returns a nil error for every
configuration state, so a non-positive workerCount is never rejected and
never reported to the caller; instead `ProcessFiles` runs with zero workers —
every reachable state of such a run has no Results and is already "terminal"
(`wg.Wait()` returns at once), so the run silently emits nothing for its
non-empty file list. -/
theorem C3_workerCount_not_validated :
    (∀ v : ViperState, (LoadConfig v).2 = none) ∧
    (∀ (fs : String → FileModel) (s : PState),
      Reach fs { Files := ["./sample1.txt"], Word := "go", WorkerCount := 0 } s →
      s.results = [] ∧ Terminal s) := by
  constructor
  · intro v
    rfl
  · intro fs s hr
    have hres := (reach_zero_workers hr rfl).1
    have hlen := reach_workers_length hr
    have hwnil : s.workers = [] := List.length_eq_zero.mp (by simpa using hlen)
    refine ⟨hres, ?_⟩
    intro w hwmem
    rw [hwnil] at hwmem
    exact absurd hwmem (List.not_mem_nil w)

/-- Concrete instance of C3: the configuration state holding workerCount 0 is
accepted with a nil error, and the zero-worker pipeline state is already
terminal with no Results despite one file. -/
theorem C3_workerCount_not_validated_witness :
    (LoadConfig { readConfigError := none, files := ["./sample1.txt"],
                  filesString := "", word := "go", workerCount := 0 }).2 = none ∧
    ((initState { Files := ["./sample1.txt"], Word := "go",
                  WorkerCount := 0 }).results = [] ∧
      Terminal (initState { Files := ["./sample1.txt"], Word := "go",
                            WorkerCount := 0 })) :=
  ⟨C3_workerCount_not_validated.1 _,
   C3_workerCount_not_validated.2
     (fun _ => { openError := none, lines := [], scanError := none }) _
     Relation.ReflTransGen.refl⟩

/-- Claim C8 fails on the code: an empty target word is not rejected —
`LoadConfig` accepts it with a nil error — and, once submitted as a Job,
`strings.Count` treats it as matching at every position of every line
(rune count + 1 per line). -/
theorem C8_empty_word_not_rejected :
    LoadConfig { readConfigError := none, files := ["./f1.txt"],
                 filesString := "", word := "", workerCount := 1 } =
      ({ Files := ["./f1.txt"], Word := "", WorkerCount := 1 }, none) ∧
    stringsCount "ab" "" = 3 ∧
    CountWord { openError := none, lines := ["ab", "xyz"], scanError := none }
        none { FilePath := "./f1.txt", Word := "" } =
      { FilePath := "./f1.txt", WordCount := 7, Error := none } := by
  refine ⟨rfl, by simp [stringsCount], ?_⟩
  simp [CountWord, scanLoop, stringsCount]

/-- Claim C9: `LoadConfig` returns a nil error for every configuration state
(a config-file read failure is only printed, and no value is validated), so
the configuration-failure branch of `main` is never taken. -/
theorem C9_loadConfig_never_fails :
    ∀ v : ViperState, (LoadConfig v).2 = none ∧ mainConfigAborted v = false := by
  intro v
  exact ⟨rfl, rfl⟩

/-- Claim C6: `ProcessFiles` first creates the job queue and the result
channel, both with capacity equal to the number of files; it spawns exactly
`workerCount` workers (for a non-negative workerCount); and after the spawn
events it enqueues exactly one Job per file in file-list order, then closes
the job queue, then waits for all workers, then — as the very last action —
closes the result channel. -/
theorem C6_processFiles_orchestration :
    ∀ fp : FileProcessor, 0 ≤ fp.WorkerCount →
      ((ProcessFilesEvents fp).take 2 =
        [PEvent.makeJobQueue fp.Files.length,
         PEvent.makeResultChan fp.Files.length]) ∧
      (((ProcessFilesEvents fp).countP isSpawnEvent : Int) = fp.WorkerCount) ∧
      ((ProcessFilesEvents fp).drop (fp.WorkerCount.toNat + 2) =
        fp.Files.map (fun p => PEvent.enqueue { FilePath := p, Word := fp.Word }) ++
          [PEvent.closeJobQueue, PEvent.waitWorkers, PEvent.closeResultChan]) := by
  intro fp hw
  refine ⟨rfl, ?_, ?_⟩
  · simp only [ProcessFilesEvents, List.countP_cons, List.countP_append,
      spawnLoopEvents_countP, enqueueLoopEvents_countP, isSpawnEvent]
    simp [Int.toNat_of_nonneg hw]
  · simp only [ProcessFilesEvents, List.drop_succ_cons, List.append_assoc,
      spawnLoopEvents_drop, enqueueLoopEvents_eq_map]

/-- Concrete instance of C6 at the one-file, one-worker configuration. -/
theorem C6_processFiles_orchestration_witness :
    ((ProcessFilesEvents fpOne).take 2 =
      [PEvent.makeJobQueue fpOne.Files.length,
       PEvent.makeResultChan fpOne.Files.length]) ∧
    (((ProcessFilesEvents fpOne).countP isSpawnEvent : Int) = fpOne.WorkerCount) ∧
    ((ProcessFilesEvents fpOne).drop (fpOne.WorkerCount.toNat + 2) =
      fpOne.Files.map (fun p => PEvent.enqueue { FilePath := p, Word := fpOne.Word }) ++
        [PEvent.closeJobQueue, PEvent.waitWorkers, PEvent.closeResultChan]) :=
  C6_processFiles_orchestration fpOne (by decide)
